import Mathlib

/-!
Shallow embedding of the commodity-quote pipeline of this repository:
the Alpha Vantage proxy endpoint `src/api/commodities.js`, the client
service module `src/src/services/alpha-vantage-commodities.ts`, and the
legacy service variant `src/unnamed/part_001`.

Modelling conventions:
* JavaScript numbers are modelled as exact rationals; the arithmetic in
  the claims stays within the exact fragment.
* A `Date` timestamp is modelled as `Option Int` (epoch milliseconds);
  `none` models the NaN time of an Invalid Date.
* Parsed JSON values are modelled by `JsonVal`; object fields keep
  insertion order, mirroring the key order JavaScript iterates in.
  JSON cannot contain NaN or Infinity, so `jnum` carries a rational.
* `parseFloat` and `new Date(string)` are JavaScript builtins; they are
  modelled on the fragment the pipeline exercises (plain decimal
  literals, plain ISO `YYYY-MM-DD` dates); other inputs map to `none`
  (NaN), matching the builtins on every string used in a theorem below.
* Numeric coercion of arrays and objects (`Number([5]) = 5`) is outside
  the modelled fragment and maps to NaN; no theorem below feeds an array
  or object where the code expects a scalar value field.
-/

/-- Digits of a decimal literal accumulated to a natural number. -/
def digitsToNat (ds : List Char) : Nat :=
  ds.foldl (fun a c => a * 10 + (c.toNat - 48)) 0

/-- Model of the JavaScript builtin `parseFloat` on plain decimal
literals: optional sign, then digits with an optional decimal point,
requiring at least one digit; trailing characters are ignored as in
JavaScript. `none` models NaN. Exponents, whitespace skipping and
`Infinity` are outside the modelled fragment. -/
def parseFloat (s : String) : Option ℚ :=
  let cs := s.toList
  let signAndRest : Bool × List Char :=
    match cs with
    | '-' :: rest => (true, rest)
    | '+' :: rest => (false, rest)
    | _ => (false, cs)
  let neg := signAndRest.1
  let cs1 := signAndRest.2
  let ip := cs1.takeWhile Char.isDigit
  let cs2 := cs1.dropWhile Char.isDigit
  let fp :=
    match cs2 with
    | '.' :: rest => rest.takeWhile Char.isDigit
    | _ => []
  if ip.isEmpty && fp.isEmpty then none
  else
    let mag : ℚ := (digitsToNat ip : ℚ) + (digitsToNat fp : ℚ) / ((10 : ℚ) ^ fp.length)
    some (if neg then -mag else mag)

/-- Leap-year test of the proleptic Gregorian calendar. -/
def isLeapYear (y : Int) : Bool :=
  y % 4 == 0 && (y % 100 != 0 || y % 400 == 0)

/-- Number of days of month `m` (1-12) in year `y`. -/
def daysInMonth (y : Int) (m : Nat) : Nat :=
  if m == 2 then (if isLeapYear y then 29 else 28)
  else if m == 4 || m == 6 || m == 9 || m == 11 then 30
  else 31

/-- Days from the civil date `(y, m, d)` to the Unix epoch (standard
civil-from-days algorithm, restricted to the nonnegative years produced
by a four-digit year field). -/
def daysFromCivil (y : Int) (m d : Nat) : Int :=
  let y' : Int := if m <= 2 then y - 1 else y
  let era : Int := y' / 400
  let yoe : Int := y' - era * 400
  let mp : Int := if m > 2 then (m : Int) - 3 else (m : Int) + 9
  let doy : Int := (153 * mp + 2) / 5 + (d : Int) - 1
  let doe : Int := yoe * 365 + yoe / 4 - yoe / 100 + doy
  era * 146097 + doe - 719468

/-- Splits a character list on dashes (the list analogue of splitting
a string on the separator `-`). -/
def splitDashes (cs : List Char) : List (List Char) :=
  match cs with
  | [] => [[]]
  | c :: rest =>
    if c = '-' then [] :: splitDashes rest
    else
      match splitDashes rest with
      | g :: gs => (c :: g) :: gs
      | [] => [[c]]

/-- Model of `new Date(s).getTime()` on plain ISO date strings
`YYYY-MM-DD` (interpreted as UTC midnight, as ECMAScript does for
date-only forms). Any other string yields `none`, modelling the NaN
time of an Invalid Date; this matches the builtin on every string used
in a theorem below. -/
def parseDate (s : String) : Option Int :=
  match splitDashes s.toList with
  | [ys, ms, ds] =>
    if ys.length == 4 && ms.length == 2 && ds.length == 2 &&
        ys.all Char.isDigit && ms.all Char.isDigit && ds.all Char.isDigit then
      let y : Int := (digitsToNat ys : Int)
      let m := digitsToNat ms
      let d := digitsToNat ds
      if 1 ≤ m && m ≤ 12 && 1 ≤ d && d ≤ daysInMonth y m then
        some (daysFromCivil y m d * 86400000)
      else none
    else none
  | _ => none

/-- Parsed JSON value. Object fields keep insertion order and are
assumed key-unique, as produced by `res.json()`. -/
inductive JsonVal where
  | jnull : JsonVal
  | jbool : Bool → JsonVal
  | jnum : ℚ → JsonVal
  | jstr : String → JsonVal
  | jarr : List JsonVal → JsonVal
  | jobj : List (String × JsonVal) → JsonVal

/-- First binding of key `k` among object fields (JavaScript property
lookup; fields are key-unique). -/
def getField : List (String × JsonVal) → String → Option JsonVal
  | [], _ => none
  | (k', v) :: rest, k => if k' == k then some v else getField rest k

/-- Property access `o[k]`: `none` models `undefined`. -/
def JsonVal.get? : JsonVal → String → Option JsonVal
  | .jobj fields, k => getField fields k
  | _, _ => none

/-- Collapses a JSON `null` to `undefined`, the behaviour of the left
operand of the `??` operator. -/
def nullish : Option JsonVal → Option JsonVal
  | some .jnull => none
  | v => v

/-- Model of `a ?? b`: the right operand replaces `null`/`undefined`
but is itself returned as-is. -/
def coalesce (a b : Option JsonVal) : Option JsonVal :=
  match nullish a with
  | some v => some v
  | none => b

/-- Model of `a ?? b ?? c`. -/
def coalesce3 (a b c : Option JsonVal) : Option JsonVal :=
  coalesce a (coalesce b c)

/-- A time-series point as built by the normalizers: `timestamp` is the
result of `new Date(dateStr).getTime()` (`none` = NaN of an Invalid
Date), `price` the parsed numeric value. -/
structure TimeSeriesPoint where
  timestamp : Option Int
  price : ℚ
deriving DecidableEq, Repr

/-- Model of `a.timestamp.getTime() - b.timestamp.getTime()` (NaN
propagates). -/
def jsSub : Option Int → Option Int → Option Int
  | some x, some y => some (x - y)
  | _, _ => none

/-- Model of `Math.abs` (NaN propagates). -/
def jsAbs : Option Int → Option Int
  | some x => some |x|
  | none => none

/-- Boolean comparison backing the sort comparator
`(a, b) => a.timestamp.getTime() - b.timestamp.getTime()`: for valid
timestamps it is numeric order; a NaN comparator result is treated as 0
(no preference), modelled by `true` in either direction. -/
def tsLeB : Option Int → Option Int → Bool
  | some x, some y => x ≤ y
  | _, _ => true

/-- One insertion step of the stable sort. -/
def insertPt (p : TimeSeriesPoint) : List TimeSeriesPoint → List TimeSeriesPoint
  | [] => [p]
  | q :: l => if tsLeB p.timestamp q.timestamp then p :: q :: l else q :: insertPt p l

/-- Model of `[...series].sort((a, b) => a.timestamp.getTime() -
b.timestamp.getTime())` as a stable insertion sort: with a consistent
comparator (all timestamps valid) `Array.prototype.sort` is required to
be a stable sort, and the stable ascending reordering of a list is
unique, so any stable sort realizes it. When a NaN timestamp makes the
comparator inconsistent the engine order is implementation-defined and
this is one realization. -/
def jsSortPoints (l : List TimeSeriesPoint) : List TimeSeriesPoint :=
  l.foldr insertPt []

/-- Ascending-by-timestamp ordering on points; a NaN timestamp is not
ordered with respect to anything (as in JavaScript, where every
comparison with NaN is false). -/
def tsLeValidB (a b : Option Int) : Bool :=
  match a, b with
  | some x, some y => x ≤ y
  | _, _ => false

/-- The output sequence is sorted ascending by timestamp: every pair in
order is comparably ascending. -/
def sortedByTs (l : List TimeSeriesPoint) : Prop :=
  l.Pairwise fun p q => tsLeValidB p.timestamp q.timestamp = true

instance (l : List TimeSeriesPoint) : Decidable (sortedByTs l) :=
  inferInstanceAs (Decidable (l.Pairwise _))

/-- The fixed closed symbol set (`COMMODITY_IDS` / `CommodityId`). -/
inductive CommodityId where
  | WTI | BRENT | NATGAS | GOLD | SILVER | COPPER | WHEAT
deriving DecidableEq, Repr

/-- One entry of the fixed symbol table. -/
structure MetaEntry where
  displayName : String
  alphaFunction : String
deriving DecidableEq, Repr

/-- The `META` table of `src/api/commodities.js`. -/
def META : CommodityId → MetaEntry
  | .WTI => { displayName := "WTI Crude", alphaFunction := "WTI" }
  | .BRENT => { displayName := "Brent Crude", alphaFunction := "BRENT" }
  | .NATGAS => { displayName := "Natural Gas", alphaFunction := "NATURAL_GAS" }
  | .GOLD => { displayName := "Gold", alphaFunction := "GOLD" }
  | .SILVER => { displayName := "Silver", alphaFunction := "SILVER" }
  | .COPPER => { displayName := "Copper", alphaFunction := "COPPER" }
  | .WHEAT => { displayName := "Wheat", alphaFunction := "WHEAT" }

/-- The `COMMODITY_META` table of
`src/src/services/alpha-vantage-commodities.ts` (same content as
`META`). -/
def COMMODITY_META : CommodityId → MetaEntry
  | .WTI => { displayName := "WTI Crude", alphaFunction := "WTI" }
  | .BRENT => { displayName := "Brent Crude", alphaFunction := "BRENT" }
  | .NATGAS => { displayName := "Natural Gas", alphaFunction := "NATURAL_GAS" }
  | .GOLD => { displayName := "Gold", alphaFunction := "GOLD" }
  | .SILVER => { displayName := "Silver", alphaFunction := "SILVER" }
  | .COPPER => { displayName := "Copper", alphaFunction := "COPPER" }
  | .WHEAT => { displayName := "Wheat", alphaFunction := "WHEAT" }

/-- A commodity quote (`CommodityQuote`). `none` models `null`. -/
structure Quote where
  id : CommodityId
  displayName : String
  currentPrice : Option ℚ
  change1hPct : Option ℚ
  change4hPct : Option ℚ
  change24hPct : Option ℚ
deriving DecidableEq, Repr

/-- Model of `computeChangePct(now, past)`: identical function in
`src/api/commodities.js`, the service module and the legacy variant.
`none` models the `null` argument and result. -/
def computeChangePct (now : ℚ) (past : Option ℚ) : Option ℚ :=
  match past with
  | none => none
  | some p => if p = 0 then none else some ((now - p) / p * 100)

/-- Model of `findClosest(deltaMs)` closed over the sorted series and the anchor
timestamp: linear scan keeping the first point whose absolute distance
to `target` is strictly smaller than the best so far (`bestDiff` starts
at Infinity, so any non-NaN distance beats it; a NaN distance never
wins). Identical logic in all three quote builders. -/
def findClosest (sorted : List TimeSeriesPoint) (nowTs : Option Int)
    (deltaMs : Int) : Option TimeSeriesPoint :=
  let target := jsSub nowTs (some deltaMs)
  (sorted.foldl
    (fun best p =>
      match jsAbs (jsSub p.timestamp target) with
      | none => best
      | some d =>
        match best with
        | none => some (p, d)
        | some (_, bd) => if d < bd then some (p, d) else best)
    none).map Prod.fst

/-- Model of `buildQuote(id, series)` of `src/api/commodities.js`. -/
def buildQuote (id : CommodityId) (series : List TimeSeriesPoint) : Quote :=
  let meta := META id
  if series.isEmpty then
    { id := id, displayName := meta.displayName, currentPrice := none,
      change1hPct := none, change4hPct := none, change24hPct := none }
  else
    let sorted := jsSortPoints series
    match sorted.getLast? with
    | none =>
      { id := id, displayName := meta.displayName, currentPrice := none,
        change1hPct := none, change4hPct := none, change24hPct := none }
    | some nowPoint =>
      let oneDayMs : Int := 24 * 3600 * 1000
      let p1d := findClosest sorted nowPoint.timestamp (1 * oneDayMs)
      let p4d := findClosest sorted nowPoint.timestamp (4 * oneDayMs)
      { id := id, displayName := meta.displayName,
        currentPrice := some nowPoint.price,
        change1hPct := none,
        change4hPct :=
          match p4d with
          | some p => computeChangePct nowPoint.price (some p.price)
          | none => none,
        change24hPct :=
          match p1d with
          | some p => computeChangePct nowPoint.price (some p.price)
          | none => none }

/-- Model of `buildCommodityQuoteFromSeries(id, series)` of
`src/src/services/alpha-vantage-commodities.ts` (same algorithm as the
proxy's `buildQuote`, written against `COMMODITY_META`). -/
def buildCommodityQuoteFromSeries (id : CommodityId)
    (series : List TimeSeriesPoint) : Quote :=
  let meta := COMMODITY_META id
  if series.isEmpty then
    { id := id, displayName := meta.displayName, currentPrice := none,
      change1hPct := none, change4hPct := none, change24hPct := none }
  else
    let sorted := jsSortPoints series
    match sorted.getLast? with
    | none =>
      { id := id, displayName := meta.displayName, currentPrice := none,
        change1hPct := none, change4hPct := none, change24hPct := none }
    | some nowPoint =>
      let oneDayMs : Int := 24 * 3600 * 1000
      let p1d := findClosest sorted nowPoint.timestamp (1 * oneDayMs)
      let p4d := findClosest sorted nowPoint.timestamp (4 * oneDayMs)
      { id := id, displayName := meta.displayName,
        currentPrice := some nowPoint.price,
        change1hPct := none,
        change4hPct :=
          match p4d with
          | some p => computeChangePct nowPoint.price (some p.price)
          | none => none,
        change24hPct :=
          match p1d with
          | some p => computeChangePct nowPoint.price (some p.price)
          | none => none }

/-- Quote builder of the legacy service variant `src/unnamed/part_001`:
same structure, but the three horizons are 1, 4 and 24 hours and each
change is computed as `computeChangePct(nowPoint.price, p?.price ??
null)`. -/
def buildCommodityQuoteFromSeriesLegacy (id : CommodityId)
    (series : List TimeSeriesPoint) : Quote :=
  let meta := COMMODITY_META id
  if series.isEmpty then
    { id := id, displayName := meta.displayName, currentPrice := none,
      change1hPct := none, change4hPct := none, change24hPct := none }
  else
    let sorted := jsSortPoints series
    match sorted.getLast? with
    | none =>
      { id := id, displayName := meta.displayName, currentPrice := none,
        change1hPct := none, change4hPct := none, change24hPct := none }
    | some nowPoint =>
      let oneHourMs : Int := 3600 * 1000
      let p1h := findClosest sorted nowPoint.timestamp (1 * oneHourMs)
      let p4h := findClosest sorted nowPoint.timestamp (4 * oneHourMs)
      let p24h := findClosest sorted nowPoint.timestamp (24 * oneHourMs)
      { id := id, displayName := meta.displayName,
        currentPrice := some nowPoint.price,
        change1hPct := computeChangePct nowPoint.price ((p1h.map TimeSeriesPoint.price)),
        change4hPct := computeChangePct nowPoint.price ((p4h.map TimeSeriesPoint.price)),
        change24hPct := computeChangePct nowPoint.price ((p24h.map TimeSeriesPoint.price)) }

/-- Model of `isValidNumericValue(val)` of `src/api/commodities.js`. The input is
the result of a property access (`none` = `undefined`). A number from
parsed JSON is never NaN; a string is valid when `parseFloat` does not
give NaN; `"."`, `""`, `null` and `undefined` are explicitly invalid;
booleans coerce through `parseFloat(String(val))` to NaN. Arrays and
objects are outside the modelled scalar fragment (see header). -/
def isValidNumericValue : Option JsonVal → Bool
  | none => false
  | some .jnull => false
  | some (.jnum _) => true
  | some (.jstr s) => !(s == ".") && !(s == "") && (parseFloat s).isSome
  | some (.jbool _) => false
  | some (.jarr _) => false
  | some (.jobj _) => false

/-- The flat-list filter of the proxy's shape A:
`d && typeof d === 'object' && typeof d.date === 'string' &&
isValidNumericValue(d.value ?? d.close)`. Only a JSON object passes the
first two tests with a `date` property that can be a string. -/
def recordOk (d : JsonVal) : Bool :=
  match d with
  | .jobj _ =>
    (match d.get? "date" with
     | some (.jstr _) => true
     | _ => false) &&
    isValidNumericValue (coalesce (d.get? "value") (d.get? "close"))
  | _ => false

/-- The mapped point of an accepted shape-A record in the proxy:
`{ timestamp: new Date(d.date), price: parseFloat(d.value ?? d.close) }`
(a number goes through `parseFloat(String(n))`, which returns it
unchanged). The fallback branches are unreachable once `recordOk`
held. -/
def pointOfRow (d : JsonVal) : TimeSeriesPoint :=
  let dateStr :=
    match d.get? "date" with
    | some (.jstr s) => s
    | _ => ""
  let price :=
    match coalesce (d.get? "value") (d.get? "close") with
    | some (.jnum q) => q
    | some (.jstr s) => (parseFloat s).getD 0
    | _ => 0
  { timestamp := parseDate dateStr, price := price }

/-- Shape-A points of the proxy normalizer: `obj.data.filter(...).map(...)`. -/
def shapeAPoints (rows : List JsonVal) : List TimeSeriesPoint :=
  (rows.filter recordOk).map pointOfRow

/-- One keyed-by-date entry of the proxy's shape B: skip unless the
value is an object, read the close field through the alias chain
`values['4. close'] ?? values['5. close'] ?? values.close`, skip when
`isValidNumericValue` rejects it, otherwise parse it. A JSON `null` or
array value fails the `typeof values === 'object'`-and-truthiness test
or yields no close field, so only the object branch can produce a
point. -/
def shapeBEntry (entry : String × JsonVal) : Option TimeSeriesPoint :=
  match entry.2 with
  | .jobj _ =>
    let close := coalesce3 (entry.2.get? "4. close") (entry.2.get? "5. close")
      (entry.2.get? "close")
    if isValidNumericValue close then
      let num :=
        match close with
        | some (.jstr s) => (parseFloat s).getD 0
        | some (.jnum q) => q
        | _ => 0
      some { timestamp := parseDate entry.1, price := num }
    else none
  | _ => none

/-- Shape-B points of the proxy normalizer over the entries of the
selected keyed-by-date object. -/
def shapeBPoints (entries : List (String × JsonVal)) : List TimeSeriesPoint :=
  entries.filterMap shapeBEntry

/-- Whether `cs` begins with the characters `ps`. -/
def charsStartWith : List Char → List Char → Bool
  | _, [] => true
  | [], _ :: _ => false
  | c :: cs, p :: ps => c == p && charsStartWith cs ps

/-- Model of `String.prototype.startsWith`. -/
def strStartsWith (s pre : String) : Bool :=
  charsStartWith s.toList pre.toList

/-- The shape-B key lookup of the proxy normalizer:
`Object.keys(obj).find(k => (k.startsWith('Time Series') || k === 'data')
&& k !== 'Meta Data' && k !== 'metadata')`. -/
def findSeriesKey (fields : List (String × JsonVal)) : Option String :=
  (fields.map Prod.fst).find? fun k =>
    (strStartsWith k "Time Series" || k == "data") && !(k == "Meta Data") && !(k == "metadata")

/-- Model of `parseAlphaVantageResponse(raw)` of `src/api/commodities.js`: shape
A from a `data` array, then shape B from the first key matching the
series-key test when it holds a non-array object, concatenated and
sorted by timestamp. A non-object input (including an array, whose
index keys never match and whose `data` property is undefined) yields
no points. -/
def parseAlphaVantageResponse (raw : JsonVal) : List TimeSeriesPoint :=
  match raw with
  | .jobj fields =>
    let shapeA :=
      match getField fields "data" with
      | some (.jarr rows) => shapeAPoints rows
      | _ => []
    let shapeB :=
      match findSeriesKey fields with
      | some k =>
        match getField fields k with
        | some (.jobj entries) => shapeBPoints entries
        | _ => []
      | none => []
    jsSortPoints (shapeA ++ shapeB)
  | _ => []

/-- The numeric conversion of the service module's shape A:
`typeof val === 'number' ? val : typeof val === 'string' ?
parseFloat(val) : NaN`; `none` models NaN. -/
def svcNum : Option JsonVal → Option ℚ
  | some (.jnum q) => some q
  | some (.jstr s) => parseFloat s
  | _ => none

/-- One flat-list row of the service module's shape A
(`src/src/services/alpha-vantage-commodities.ts`): unlike the proxy,
the date string must be truthy (non-empty) and there is no explicit
sentinel check — the row is kept when `dateStr && !Number.isNaN(num)`. -/
def svcRowPoint (row : JsonVal) : Option TimeSeriesPoint :=
  match row with
  | .jobj _ =>
    let dateStr :=
      match row.get? "date" with
      | some (.jstr s) => some s
      | _ => none
    let val := coalesce (row.get? "value") (row.get? "close")
    match dateStr, svcNum val with
    | some s, some q => if s == "" then none else some { timestamp := parseDate s, price := q }
    | _, _ => none
  | _ => none

/-- The numeric conversion of the service module's shape B:
`typeof close === 'string' ? parseFloat(close) : Number(close)`.
`Number(null) = 0` and `Number(bool)` are faithful; arrays and objects
are outside the modelled scalar fragment. `none` models NaN
(`Number(undefined)`). -/
def svcNumB : Option JsonVal → Option ℚ
  | some (.jstr s) => parseFloat s
  | some (.jnum q) => some q
  | some .jnull => some 0
  | some (.jbool b) => some (if b then 1 else 0)
  | _ => none

/-- One keyed-by-date entry of the service module's shape B: no
`isValidNumericValue` gate, the entry is kept whenever the converted
close value is not NaN. -/
def svcShapeBEntry (entry : String × JsonVal) : Option TimeSeriesPoint :=
  match entry.2 with
  | .jobj _ =>
    let close := coalesce3 (entry.2.get? "4. close") (entry.2.get? "5. close")
      (entry.2.get? "close")
    match svcNumB close with
    | some q => some { timestamp := parseDate entry.1, price := q }
    | none => none
  | _ => none

/-- Shape-A points of the service module's normalizer. -/
def svcShapeAPoints (rows : List JsonVal) : List TimeSeriesPoint :=
  rows.filterMap svcRowPoint

/-- Shape-B points of the service module's normalizer. -/
def svcShapeBPoints (entries : List (String × JsonVal)) : List TimeSeriesPoint :=
  entries.filterMap svcShapeBEntry

/-- The shape-B key lookup of the service module's normalizer:
`Object.keys(obj).find(k => k.startsWith('Time Series') || k === 'data')`
(no metadata exclusion here). -/
def svcFindSeriesKey (fields : List (String × JsonVal)) : Option String :=
  (fields.map Prod.fst).find? fun k => strStartsWith k "Time Series" || k == "data"

/-- Model of `parseAlphaVantageResponse(raw)` of
`src/src/services/alpha-vantage-commodities.ts`. -/
def svcParseAlphaVantageResponse (raw : JsonVal) : List TimeSeriesPoint :=
  match raw with
  | .jobj fields =>
    let shapeA :=
      match getField fields "data" with
      | some (.jarr rows) => svcShapeAPoints rows
      | _ => []
    let shapeB :=
      match svcFindSeriesKey fields with
      | some k =>
        match getField fields k with
        | some (.jobj entries) => svcShapeBPoints entries
        | _ => []
      | none => []
    jsSortPoints (shapeA ++ shapeB)
  | _ => []

/-- Outcome of one outbound provider call, as observed after
`fetch`/`res.json()`: the network call threw, the response had a
non-success status (its body as parsed), or it succeeded with a parsed
JSON body. -/
inductive FetchOutcome where
  | networkError : FetchOutcome
  | httpError : JsonVal → FetchOutcome
  | ok : JsonVal → FetchOutcome

/-- Model of the test `json && typeof json === 'object' && 'Note' in json`: presence of
the rate-limit diagnostic key. The `in` operator tests key presence,
so a `null`-valued `Note` still counts; non-objects (and arrays, which
have no such property) fail the test. -/
def hasNote (json : JsonVal) : Bool :=
  match json with
  | .jobj fields => fields.any fun kv => kv.1 == "Note"
  | _ => false

/-- The `dataKey` lookup of `fetchOneCommodity` in
`src/api/commodities.js`: `Object.keys(json).find(k => k !== 'Meta Data'
&& k !== 'metadata' && (k.startsWith('Time Series') || k === 'data'))`. -/
def findDataKey (json : JsonVal) : Option String :=
  match json with
  | .jobj fields =>
    (fields.map Prod.fst).find? fun k =>
      !(k == "Meta Data") && !(k == "metadata") && (strStartsWith k "Time Series" || k == "data")
  | _ => none

/-- The `dataKey` lookup of `fetchCommodityTimeSeries` in the service
module: `(k !== 'Meta Data' && k !== 'metadata' &&
k.startsWith('Time Series')) || k === 'data'`. -/
def svcFindDataKey (json : JsonVal) : Option String :=
  match json with
  | .jobj fields =>
    (fields.map Prod.fst).find? fun k =>
      (!(k == "Meta Data") && !(k == "metadata") && strStartsWith k "Time Series") || k == "data"
  | _ => none

/-- Model of `raw = dataKey ? json[dataKey] : json` followed by
`raw ?? json`. -/
def selectRaw (json : JsonVal) (dataKey : Option String) : JsonVal :=
  match dataKey with
  | some k =>
    match json.get? k with
    | some .jnull => json
    | some v => v
    | none => json
  | none => json

/-- The point sequence produced by `fetchOneCommodity` of
`src/api/commodities.js` for a given call outcome: a thrown fetch or a
non-success status yields no points; on success a body carrying the
`Note` key yields no points before any shape parsing; a `null` body
makes `Object.keys(null)` throw into the surrounding catch; otherwise
the payload under the data key (or the whole payload) is normalized. -/
def fetchOneCommodityPoints : FetchOutcome → List TimeSeriesPoint
  | .networkError => []
  | .httpError _ => []
  | .ok json =>
    if hasNote json then []
    else
      match json with
      | .jnull => []
      | _ => parseAlphaVantageResponse (selectRaw json (findDataKey json))

/-- The point sequence produced by the real-API branch of
`fetchCommodityTimeSeries` in the service module for a given call
outcome (the mock branch taken without an API key is outside this
model). -/
def fetchCommodityTimeSeriesPoints : FetchOutcome → List TimeSeriesPoint
  | .networkError => []
  | .httpError _ => []
  | .ok json =>
    if hasNote json then []
    else
      match json with
      | .jnull => []
      | _ => svcParseAlphaVantageResponse (selectRaw json (svcFindDataKey json))

/-- The fixed canonical symbol order `COMMODITY_IDS` of
`src/api/commodities.js`. -/
def COMMODITY_IDS : List CommodityId :=
  [.WTI, .BRENT, .NATGAS, .GOLD, .SILVER, .COPPER, .WHEAT]

/-- The quote assembly of the proxy `handler`:
`Promise.all(COMMODITY_IDS.map(id => fetchOneCommodity(apiKey, id)))`
keeps the canonical order, then
`COMMODITY_IDS.map((id, i) => buildQuote(id, results[i].points))`.
The per-symbol call outcomes are the function argument; the fetches
share no state, so each entry depends only on its own outcome. -/
def handlerQuotes (outcomes : CommodityId → FetchOutcome) : List Quote :=
  COMMODITY_IDS.map fun id => buildQuote id (fetchOneCommodityPoints (outcomes id))

/-- The all-absent quote a symbol degrades to (empty-series branch of
`buildQuote`). -/
def emptyQuote (id : CommodityId) : Quote :=
  { id := id, displayName := (META id).displayName, currentPrice := none,
    change1hPct := none, change4hPct := none, change24hPct := none }

theorem insertPt_perm (p : TimeSeriesPoint) (l : List TimeSeriesPoint) :
    (insertPt p l).Perm (p :: l) := by
  induction l with
  | nil => simp [insertPt]
  | cons q l ih =>
    simp only [insertPt]
    split
    · exact List.Perm.refl _
    · exact (ih.cons q).trans (List.Perm.swap p q l)

theorem jsSortPoints_perm (l : List TimeSeriesPoint) :
    (jsSortPoints l).Perm l := by
  induction l with
  | nil => exact List.Perm.refl _
  | cons p l ih =>
    exact (insertPt_perm p (jsSortPoints l)).trans (ih.cons p)

theorem mem_jsSortPoints {q : TimeSeriesPoint} {l : List TimeSeriesPoint} :
    q ∈ jsSortPoints l ↔ q ∈ l :=
  (jsSortPoints_perm l).mem_iff

theorem jsSortPoints_eq_nil_iff {l : List TimeSeriesPoint} :
    jsSortPoints l = [] ↔ l = [] := by
  constructor
  · intro h
    have := (jsSortPoints_perm l).length_eq
    rw [h] at this
    exact List.length_eq_zero.mp this.symm
  · rintro rfl
    rfl

theorem sortedByTs_insertPt {p : TimeSeriesPoint} {l : List TimeSeriesPoint}
    (hp : p.timestamp.isSome) (hl : ∀ q ∈ l, q.timestamp.isSome)
    (h : sortedByTs l) : sortedByTs (insertPt p l) := by
  induction l with
  | nil =>
    simp [insertPt, sortedByTs]
  | cons q l ih =>
    have hq : q.timestamp.isSome := hl q (List.mem_cons_self q l)
    have hl' : ∀ r ∈ l, r.timestamp.isSome := fun r hr => hl r (List.mem_cons_of_mem q hr)
    rw [sortedByTs, List.pairwise_cons] at h
    obtain ⟨hql, hlp⟩ := h
    obtain ⟨x, hx⟩ := Option.isSome_iff_exists.mp hp
    obtain ⟨y, hy⟩ := Option.isSome_iff_exists.mp hq
    simp only [insertPt]
    split
    case isTrue hle =>
      rw [sortedByTs, List.pairwise_cons]
      refine ⟨fun r hr => ?_, List.pairwise_cons.mpr ⟨hql, hlp⟩⟩
      rcases List.mem_cons.mp hr with rfl | hr'
      · rw [hx, hy] at hle ⊢
        simpa [tsLeValidB] using (by simpa [tsLeB] using hle)
      · obtain ⟨z, hz⟩ := Option.isSome_iff_exists.mp (hl' r hr')
        have h1 : x ≤ y := by
          rw [hx, hy] at hle
          simpa [tsLeB] using hle
        have h2 : y ≤ z := by
          have := hql r hr'
          rw [hy, hz] at this
          simpa [tsLeValidB] using this
        rw [hx, hz]
        simpa [tsLeValidB] using le_trans h1 h2
    case isFalse hnle =>
      rw [sortedByTs, List.pairwise_cons]
      refine ⟨fun r hr => ?_, ih hl' hlp⟩
      rcases List.mem_cons.mp ((insertPt_perm p l).mem_iff.mp hr) with hr' | hr'
      · subst hr'
        have h1 : ¬ x ≤ y := by
          rw [hx, hy] at hnle
          simpa [tsLeB] using hnle
        rw [hx, hy]
        simpa [tsLeValidB] using le_of_lt (lt_of_not_le h1)
      · exact hql r hr'

theorem sortedByTs_jsSortPoints {l : List TimeSeriesPoint}
    (hl : ∀ q ∈ l, q.timestamp.isSome) : sortedByTs (jsSortPoints l) := by
  induction l with
  | nil => simp [jsSortPoints, sortedByTs]
  | cons p l ih =>
    have hp : p.timestamp.isSome := hl p (List.mem_cons_self p l)
    have hl' : ∀ r ∈ l, r.timestamp.isSome := fun r hr => hl r (List.mem_cons_of_mem p hr)
    have hsort : ∀ q ∈ jsSortPoints l, q.timestamp.isSome :=
      fun q hq => hl' q (mem_jsSortPoints.mp hq)
    exact sortedByTs_insertPt hp hsort (ih hl')

theorem pairwise_rel_getLast {R : TimeSeriesPoint → TimeSeriesPoint → Prop}
    {l : List TimeSeriesPoint} (h : l.Pairwise R) {p : TimeSeriesPoint}
    (hp : l.getLast? = some p) : ∀ q ∈ l, q = p ∨ R q p := by
  have hsplit : l.dropLast ++ [p] = l :=
    List.dropLast_append_getLast? p hp
  intro q hq
  rw [← hsplit] at hq h
  rcases List.mem_append.mp hq with hq' | hq'
  · right
    exact (List.pairwise_append.mp h).2.2 q hq' p (List.mem_singleton_self p)
  · left
    exact List.mem_singleton.mp hq'

theorem COMMODITY_META_eq_META (id : CommodityId) : COMMODITY_META id = META id := by
  cases id <;> rfl

theorem buildCommodityQuoteFromSeries_eq (id : CommodityId)
    (series : List TimeSeriesPoint) :
    buildCommodityQuoteFromSeries id series = buildQuote id series := by
  unfold buildCommodityQuoteFromSeries buildQuote
  rw [COMMODITY_META_eq_META]

theorem buildQuote_id (id : CommodityId) (series : List TimeSeriesPoint) :
    (buildQuote id series).id = id := by
  unfold buildQuote
  dsimp only
  split
  · rfl
  · split <;> rfl

/-- C6: for every symbol id, the quote builders applied to the empty
sequence return a quote whose display name comes from the fixed symbol
table and whose current price and all three change fields are absent. -/
theorem empty_series_quote_all_absent (id : CommodityId) :
    buildQuote id [] =
      { id := id, displayName := (META id).displayName, currentPrice := none,
        change1hPct := none, change4hPct := none, change24hPct := none } ∧
    buildCommodityQuoteFromSeries id [] =
      { id := id, displayName := (COMMODITY_META id).displayName, currentPrice := none,
        change1hPct := none, change4hPct := none, change24hPct := none } :=
  ⟨rfl, rfl⟩

/-- C8: the percentage-change computation returns
`(now - past) / past * 100` for a present, nonzero reference price and
is absent for an absent or exactly-zero reference; no near-zero case is
treated specially. -/
theorem computeChangePct_spec (now past : ℚ) :
    computeChangePct now none = none ∧
    computeChangePct now (some past) =
      (if past = 0 then none else some ((now - past) / past * 100)) :=
  ⟨rfl, rfl⟩

/-- C10: both the proxy's `buildQuote` and the service module's
`buildCommodityQuoteFromSeries` leave the 1-hour change field absent on
every input. -/
theorem change1h_always_absent (id : CommodityId) (series : List TimeSeriesPoint) :
    (buildQuote id series).change1hPct = none ∧
    (buildCommodityQuoteFromSeries id series).change1hPct = none := by
  rw [buildCommodityQuoteFromSeries_eq]
  refine ⟨?_, ?_⟩ <;>
  · unfold buildQuote
    dsimp only
    split
    · rfl
    · split <;> rfl

/-- C5: a successful provider response whose payload carries the
rate-limit diagnostic key `Note` yields an empty point sequence from
both per-symbol fetch pipelines, before any shape parsing. -/
theorem note_payload_yields_no_points (json : JsonVal) (h : hasNote json = true) :
    fetchOneCommodityPoints (.ok json) = [] ∧
    fetchCommodityTimeSeriesPoints (.ok json) = [] := by
  constructor
  · simp only [fetchOneCommodityPoints]
    rw [if_pos h]
  · simp only [fetchCommodityTimeSeriesPoints]
    rw [if_pos h]

/-- A rate-limited payload that also carries a parseable shape-A
record. -/
def noteJson : JsonVal :=
  .jobj [("Note", .jstr "Thank you for using Alpha Vantage!"),
         ("data", .jarr [.jobj [("date", .jstr "2024-01-02"), ("value", .jstr "72.5")]])]

/-- Witness for C5: the diagnostic payload above holds parseable price
data, yet both fetch pipelines produce no points. -/
theorem note_payload_yields_no_points_witness :
    hasNote noteJson = true ∧
    parseAlphaVantageResponse noteJson ≠ [] ∧
    fetchOneCommodityPoints (.ok noteJson) = [] ∧
    fetchCommodityTimeSeriesPoints (.ok noteJson) = [] :=
  ⟨by decide, by decide,
   (note_payload_yields_no_points noteJson (by decide)).1,
   (note_payload_yields_no_points noteJson (by decide)).2⟩

theorem buildQuote_currentPrice_of_getLast (id : CommodityId)
    {series : List TimeSeriesPoint} {p : TimeSeriesPoint}
    (hp : (jsSortPoints series).getLast? = some p) :
    (buildQuote id series).currentPrice = some p.price := by
  have hne : ¬ series.isEmpty = true := by
    intro h
    rw [List.isEmpty_iff.mp h] at hp
    simp [jsSortPoints] at hp
  unfold buildQuote
  dsimp only
  rw [if_neg hne, hp]

theorem buildQuote_currentPrice_empty (id : CommodityId) :
    (buildQuote id []).currentPrice = none := rfl

/-- C1: for every symbol and valid input series, the quote's current
price is the price of the chronologically latest point — the last
element after the ascending stable sort, whose timestamp dominates
every timestamp of the input — and the current price is absent exactly
when the input series is empty. Both quote builders agree. -/
theorem currentPrice_is_latest (id : CommodityId) (series : List TimeSeriesPoint)
    (hv : ∀ p ∈ series, p.timestamp.isSome) :
    ((buildQuote id series).currentPrice = none ↔ series = []) ∧
    (∀ p, (jsSortPoints series).getLast? = some p →
      (buildQuote id series).currentPrice = some p.price ∧
      ∀ q ∈ series, tsLeValidB q.timestamp p.timestamp = true) ∧
    buildCommodityQuoteFromSeries id series = buildQuote id series := by
  refine ⟨?_, fun p hp => ⟨buildQuote_currentPrice_of_getLast id hp, ?_⟩,
    buildCommodityQuoteFromSeries_eq id series⟩
  · constructor
    · intro h
      by_contra hne
      obtain ⟨p, hp⟩ := List.getLast?_isSome.mpr
        (fun hnil => hne (jsSortPoints_eq_nil_iff.mp hnil)) |> Option.isSome_iff_exists.mp
      rw [buildQuote_currentPrice_of_getLast id hp] at h
      exact Option.noConfusion h
    · rintro rfl
      exact buildQuote_currentPrice_empty id
  · intro q hq
    have hsorted : sortedByTs (jsSortPoints series) := sortedByTs_jsSortPoints hv
    have hmax := pairwise_rel_getLast hsorted hp q (mem_jsSortPoints.mpr hq)
    rcases hmax with rfl | hle
    · obtain ⟨x, hx⟩ := Option.isSome_iff_exists.mp (hv q hq)
      rw [hx]
      simp [tsLeValidB]
    · exact hle

/-- A two-point series given in reverse chronological order. -/
def c1Series : List TimeSeriesPoint := [⟨some 86400000, 110⟩, ⟨some 0, 100⟩]

/-- Witness for C1 at a concrete out-of-order series. -/
theorem currentPrice_is_latest_witness :
    (∀ p ∈ c1Series, p.timestamp.isSome) ∧
    (((buildQuote .GOLD c1Series).currentPrice = none ↔ c1Series = []) ∧
     (∀ p, (jsSortPoints c1Series).getLast? = some p →
       (buildQuote .GOLD c1Series).currentPrice = some p.price ∧
       ∀ q ∈ c1Series, tsLeValidB q.timestamp p.timestamp = true) ∧
     buildCommodityQuoteFromSeries .GOLD c1Series = buildQuote .GOLD c1Series) :=
  ⟨by decide, currentPrice_is_latest .GOLD c1Series (by decide)⟩

/-- C2 counterexample: on the one-point series with price 10 the claim
asserts all change fields absent, but the nearest-point search returns
the single point itself, so the 4h and 24h changes are present and
equal to 0. -/
theorem one_point_changes_counterexample :
    (buildQuote .WTI [⟨some 0, 10⟩]).currentPrice = some 10 ∧
    (buildQuote .WTI [⟨some 0, 10⟩]).change1hPct = none ∧
    (buildQuote .WTI [⟨some 0, 10⟩]).change4hPct = some 0 ∧
    (buildQuote .WTI [⟨some 0, 10⟩]).change24hPct = some 0 ∧
    ¬ (buildQuote .WTI [⟨some 0, 10⟩]).change4hPct = none := by
  have h4 : (buildQuote .WTI [⟨some 0, 10⟩]).change4hPct = some 0 := by
    show (if (10 : ℚ) = 0 then none else some (((10 : ℚ) - 10) / 10 * 100)) = some 0
    rw [if_neg (by norm_num), sub_self, zero_div, zero_mul]
  have h24 : (buildQuote .WTI [⟨some 0, 10⟩]).change24hPct = some 0 := by
    show (if (10 : ℚ) = 0 then none else some (((10 : ℚ) - 10) / 10 * 100)) = some 0
    rw [if_neg (by norm_num), sub_self, zero_div, zero_mul]
  exact ⟨rfl, rfl, h4, h24, by rw [h4]; exact fun h => Option.noConfusion h⟩

/-- C2 as amended: for a one-point series the current price is that
point's price and the 1h change is absent, but the 4h and 24h horizons
find the point itself as reference, so those changes are 0 for a
nonzero price and absent only for price 0. In the legacy variant all
three horizons behave that way. -/
theorem one_point_quote (id : CommodityId) (t : Int) (q : ℚ) :
    buildQuote id [⟨some t, q⟩] =
      { id := id, displayName := (META id).displayName, currentPrice := some q,
        change1hPct := none,
        change4hPct := if q = 0 then none else some 0,
        change24hPct := if q = 0 then none else some 0 } ∧
    buildCommodityQuoteFromSeries id [⟨some t, q⟩] = buildQuote id [⟨some t, q⟩] ∧
    buildCommodityQuoteFromSeriesLegacy id [⟨some t, q⟩] =
      { id := id, displayName := (COMMODITY_META id).displayName, currentPrice := some q,
        change1hPct := if q = 0 then none else some 0,
        change4hPct := if q = 0 then none else some 0,
        change24hPct := if q = 0 then none else some 0 } := by
  have harith : q ≠ 0 → (q - q) / q * 100 = 0 := fun _ => by
    rw [sub_self, zero_div, zero_mul]
  refine ⟨?_, buildCommodityQuoteFromSeries_eq id _, ?_⟩
  · show Quote.mk id (META id).displayName (some q) none
        (if q = 0 then none else some ((q - q) / q * 100))
        (if q = 0 then none else some ((q - q) / q * 100)) = _
    rcases eq_or_ne q 0 with rfl | hq
    · simp
    · simp [hq, harith hq]
  · show Quote.mk id (COMMODITY_META id).displayName (some q)
        (if q = 0 then none else some ((q - q) / q * 100))
        (if q = 0 then none else some ((q - q) / q * 100))
        (if q = 0 then none else some ((q - q) / q * 100)) = _
    rcases eq_or_ne q 0 with rfl | hq
    · simp
    · simp [hq, harith hq]

/-- C9: whatever the per-symbol call outcomes, the driver produces
exactly seven quotes in the fixed canonical symbol order; a symbol
whose call failed (thrown fetch, non-success status, or a payload that
parses to no points) degrades to the all-absent quote; and every other
entry is independent of that symbol's outcome. -/
theorem seven_quotes_isolated_failure (outcomes : CommodityId → FetchOutcome)
    (j : CommodityId)
    (hfail : outcomes j = .networkError ∨ (∃ js, outcomes j = .httpError js) ∨
      (∃ js, outcomes j = .ok js ∧ fetchOneCommodityPoints (.ok js) = [])) :
    (handlerQuotes outcomes).length = 7 ∧
    (handlerQuotes outcomes).map Quote.id = COMMODITY_IDS ∧
    (∀ q ∈ handlerQuotes outcomes, q.id = j → q = emptyQuote j) ∧
    ∀ outcomes' : CommodityId → FetchOutcome,
      (∀ id, id ≠ j → outcomes' id = outcomes id) →
      List.Forall₂ (fun a b => a.id ≠ j → a = b)
        (handlerQuotes outcomes) (handlerQuotes outcomes') := by
  have hpts : fetchOneCommodityPoints (outcomes j) = [] := by
    rcases hfail with h | ⟨js, h⟩ | ⟨js, h, hp⟩
    · rw [h]; rfl
    · rw [h]; rfl
    · rw [h]; exact hp
  refine ⟨rfl, ?_, ?_, ?_⟩
  · simp [handlerQuotes, COMMODITY_IDS, buildQuote_id]
  · intro q hq hid
    simp only [handlerQuotes, COMMODITY_IDS, List.map, List.mem_cons,
      List.not_mem_nil, or_false] at hq
    rcases hq with rfl | rfl | rfl | rfl | rfl | rfl | rfl
    all_goals rw [buildQuote_id] at hid
    all_goals subst hid
    all_goals rw [hpts]
    all_goals rfl
  · intro outcomes' hagree
    simp only [handlerQuotes, COMMODITY_IDS, List.map]
    refine List.Forall₂.cons ?_ (List.Forall₂.cons ?_ (List.Forall₂.cons ?_
      (List.Forall₂.cons ?_ (List.Forall₂.cons ?_ (List.Forall₂.cons ?_
      (List.Forall₂.cons ?_ List.Forall₂.nil))))))
    all_goals intro hne
    all_goals rw [buildQuote_id] at hne
    all_goals rw [hagree _ hne]

/-- A payload whose data key holds an object that itself carries a
valid flat list: the fetch step extracts the subtree under the data
key, so this doubly-wrapped form is the one that reaches the normalizer
with a recognizable shape and yields points. -/
def goodJson : JsonVal :=
  .jobj [("data", .jobj [("data",
    .jarr [.jobj [("date", .jstr "2024-01-02"), ("value", .jstr "72.5")]])])]

/-- Call outcomes in which exactly the NATGAS fetch throws. -/
def failingOutcomes : CommodityId → FetchOutcome :=
  fun id => match id with
  | .NATGAS => .networkError
  | _ => .ok goodJson

/-- Witness for C9: with the NATGAS fetch failing and the six others
succeeding on a parseable payload, the output has seven entries in
canonical order, the NATGAS entry is all-absent, the other entries are
independent of the NATGAS outcome, and each carries a present price. -/
theorem seven_quotes_isolated_failure_witness :
    (failingOutcomes .NATGAS = .networkError ∨
      (∃ js, failingOutcomes .NATGAS = .httpError js) ∨
      (∃ js, failingOutcomes .NATGAS = .ok js ∧
        fetchOneCommodityPoints (.ok js) = [])) ∧
    ((handlerQuotes failingOutcomes).length = 7 ∧
     (handlerQuotes failingOutcomes).map Quote.id = COMMODITY_IDS ∧
     (∀ q ∈ handlerQuotes failingOutcomes, q.id = .NATGAS → q = emptyQuote .NATGAS) ∧
     ∀ outcomes' : CommodityId → FetchOutcome,
       (∀ id, id ≠ .NATGAS → outcomes' id = failingOutcomes id) →
       List.Forall₂ (fun a b => a.id ≠ .NATGAS → a = b)
         (handlerQuotes failingOutcomes) (handlerQuotes outcomes')) ∧
    (∀ q ∈ handlerQuotes failingOutcomes, ¬ q.id = .NATGAS → ¬ q.currentPrice = none) :=
  ⟨Or.inl rfl,
   seven_quotes_isolated_failure failingOutcomes .NATGAS (Or.inl rfl),
   by decide⟩

/-- C3 as amended: when the keyed-by-date map field precedes the
flat-list field in the payload's key order, both normalizers merge the
points of both shapes, and points with duplicate timestamps coming from
the two shapes are both retained (the multiset of output points is the
sum of the two shapes' contributions). When the flat-list field comes
first it is selected by the shape-B key lookup and the map points are
dropped (see the counterexample). -/
theorem both_shapes_merged (aRows : List JsonVal)
    (bEntries : List (String × JsonVal)) :
    (parseAlphaVantageResponse
        (.jobj [("Time Series (Daily)", .jobj bEntries), ("data", .jarr aRows)])).Perm
      (shapeAPoints aRows ++ shapeBPoints bEntries) ∧
    (∀ p : TimeSeriesPoint,
      (parseAlphaVantageResponse
          (.jobj [("Time Series (Daily)", .jobj bEntries), ("data", .jarr aRows)])).count p =
        (shapeAPoints aRows).count p + (shapeBPoints bEntries).count p) ∧
    (svcParseAlphaVantageResponse
        (.jobj [("Time Series (Daily)", .jobj bEntries), ("data", .jarr aRows)])).Perm
      (svcShapeAPoints aRows ++ svcShapeBPoints bEntries) ∧
    (∀ p : TimeSeriesPoint,
      (svcParseAlphaVantageResponse
          (.jobj [("Time Series (Daily)", .jobj bEntries), ("data", .jarr aRows)])).count p =
        (svcShapeAPoints aRows).count p + (svcShapeBPoints bEntries).count p) := by
  have hne1 : ("Time Series (Daily)" == "data") = false := by decide
  have hk : ∀ v1 v2 : JsonVal,
      findSeriesKey [("Time Series (Daily)", v1), ("data", v2)] =
        some "Time Series (Daily)" := by
    intro v1 v2
    show List.find? _ ["Time Series (Daily)", "data"] = some "Time Series (Daily)"
    decide
  have hks : ∀ v1 v2 : JsonVal,
      svcFindSeriesKey [("Time Series (Daily)", v1), ("data", v2)] =
        some "Time Series (Daily)" := by
    intro v1 v2
    show List.find? _ ["Time Series (Daily)", "data"] = some "Time Series (Daily)"
    decide
  have hga : getField [("Time Series (Daily)", JsonVal.jobj bEntries),
      ("data", JsonVal.jarr aRows)] "data" = some (JsonVal.jarr aRows) := by
    simp [getField, hne1]
  have hgb : getField [("Time Series (Daily)", JsonVal.jobj bEntries),
      ("data", JsonVal.jarr aRows)] "Time Series (Daily)" = some (JsonVal.jobj bEntries) := by
    simp [getField]
  have h1 : parseAlphaVantageResponse
      (.jobj [("Time Series (Daily)", .jobj bEntries), ("data", .jarr aRows)]) =
      jsSortPoints (shapeAPoints aRows ++ shapeBPoints bEntries) := by
    simp only [parseAlphaVantageResponse, hga, hk, hgb]
  have h2 : svcParseAlphaVantageResponse
      (.jobj [("Time Series (Daily)", .jobj bEntries), ("data", .jarr aRows)]) =
      jsSortPoints (svcShapeAPoints aRows ++ svcShapeBPoints bEntries) := by
    simp only [svcParseAlphaVantageResponse, hga, hks, hgb]
  rw [h1, h2]
  refine ⟨jsSortPoints_perm _, fun p => ?_, jsSortPoints_perm _, fun p => ?_⟩
  · rw [(jsSortPoints_perm _).count_eq, List.count_append]
  · rw [(jsSortPoints_perm _).count_eq, List.count_append]

/-- A valid flat-list record dated 2024-01-02. -/
def c3RowA : JsonVal := .jobj [("date", .jstr "2024-01-02"), ("value", .jstr "72.5")]

/-- A valid keyed-by-date entry dated 2024-01-03. -/
def c3EntryB : String × JsonVal := ("2024-01-03", .jobj [("4. close", .jstr "73.5")])

/-- A payload carrying both recognized shapes, flat list first. -/
def c3Payload : JsonVal :=
  .jobj [("data", .jarr [c3RowA]), ("Time Series (Daily)", .jobj [c3EntryB])]

/-- C3 counterexample: on a payload containing both shapes with the
flat-list field first, each shape holds one valid record, yet both
normalizers emit a single point — the shape-B point (dated 2024-01-03)
is missing from the output, refuting the claim that points from both
shapes are always merged. -/
theorem both_shapes_merged_counterexample :
    (shapeAPoints [c3RowA]).length = 1 ∧
    (shapeBPoints [c3EntryB]).length = 1 ∧
    (svcShapeAPoints [c3RowA]).length = 1 ∧
    (svcShapeBPoints [c3EntryB]).length = 1 ∧
    (parseAlphaVantageResponse c3Payload).length = 1 ∧
    (svcParseAlphaVantageResponse c3Payload).length = 1 ∧
    (∀ p ∈ parseAlphaVantageResponse c3Payload, p.timestamp = parseDate "2024-01-02") ∧
    (∀ p ∈ svcParseAlphaVantageResponse c3Payload, p.timestamp = parseDate "2024-01-02") ∧
    (∀ p ∈ shapeBPoints [c3EntryB], p.timestamp = parseDate "2024-01-03") ∧
    ¬ parseDate "2024-01-03" = parseDate "2024-01-02" := by decide

/-- C4 as amended: the proxy's flat-list parser accepts a record
exactly when its date field is a string — emptiness is not checked —
and its value (or close) field passes the numeric validity check; the
service module's parser additionally requires the date string to be
non-empty. The literal value strings "." and the empty string are
rejected in every shape by both normalizers. -/
theorem flat_list_acceptance :
    (∀ fields : List (String × JsonVal),
      (recordOk (.jobj fields) = true ↔
        ((∃ s, getField fields "date" = some (.jstr s)) ∧
         isValidNumericValue
           (coalesce (getField fields "value") (getField fields "close")) = true))) ∧
    (∀ fields : List (String × JsonVal),
      ((svcRowPoint (.jobj fields)).isSome = true ↔
        ((∃ s, getField fields "date" = some (.jstr s) ∧ s ≠ "") ∧
         (svcNum (coalesce (getField fields "value")
           (getField fields "close"))).isSome = true))) ∧
    (isValidNumericValue (some (.jstr ".")) = false ∧
     isValidNumericValue (some (.jstr "")) = false ∧
     parseFloat "." = none ∧ parseFloat "" = none ∧
     svcNum (some (.jstr ".")) = none ∧ svcNum (some (.jstr "")) = none ∧
     svcNumB (some (.jstr ".")) = none ∧ svcNumB (some (.jstr "")) = none) ∧
    (∀ (d : String) (v : JsonVal), (v = .jstr "." ∨ v = .jstr "") →
      recordOk (.jobj [("date", .jstr d), ("value", v)]) = false ∧
      svcRowPoint (.jobj [("date", .jstr d), ("value", v)]) = none ∧
      shapeBEntry (d, .jobj [("4. close", v)]) = none ∧
      svcShapeBEntry (d, .jobj [("4. close", v)]) = none) := by
  refine ⟨?_, ?_, ⟨by decide, by decide, by decide, by decide,
    by decide, by decide, by decide, by decide⟩, ?_⟩
  · intro fields
    rcases hd : getField fields "date" with _ | v
    · simp [recordOk, JsonVal.get?, hd]
    · cases v <;> simp [recordOk, JsonVal.get?, hd]
  · intro fields
    rcases hd : getField fields "date" with _ | v
    · simp [svcRowPoint, JsonVal.get?, hd]
    · cases v <;> simp only [svcRowPoint, JsonVal.get?, hd] <;>
        try simp
      case jstr s =>
        rcases hv : svcNum (coalesce (getField fields "value") (getField fields "close")) with
          _ | q
        · simp
        · by_cases hs : s = ""
          · subst hs
            simp
          · simp [hs]
  · rintro d v (rfl | rfl)
    · exact ⟨rfl, rfl, rfl, rfl⟩
    · exact ⟨rfl, rfl, rfl, rfl⟩

/-- C4 counterexample: the proxy's flat-list parser accepts a record
whose date is the empty string and emits a point for it — with the NaN
timestamp of an Invalid Date — while the claim requires such a record
to be rejected. The service module's parser does reject it. -/
theorem flat_list_acceptance_counterexample :
    recordOk (.jobj [("date", .jstr ""), ("value", .jstr "5")]) = true ∧
    (parseAlphaVantageResponse
      (.jobj [("data", .jarr [.jobj [("date", .jstr ""), ("value", .jstr "5")]])])).length
      = 1 ∧
    (∀ p ∈ parseAlphaVantageResponse
        (.jobj [("data", .jarr [.jobj [("date", .jstr ""), ("value", .jstr "5")]])]),
      p.timestamp = none) ∧
    svcRowPoint (.jobj [("date", .jstr ""), ("value", .jstr "5")]) = none := by decide

/-- C7 as amended: for every payload all of whose emitted points carry
a valid timestamp, both normalizers return a sequence sorted ascending
by timestamp, whatever the record order in the payload; a record with
an unparseable date yields a point with the NaN timestamp, which the
sort comparator cannot order (see the counterexample). -/
theorem normalizer_output_sorted (raw : JsonVal)
    (h1 : ∀ p ∈ parseAlphaVantageResponse raw, p.timestamp.isSome)
    (h2 : ∀ p ∈ svcParseAlphaVantageResponse raw, p.timestamp.isSome) :
    sortedByTs (parseAlphaVantageResponse raw) ∧
    sortedByTs (svcParseAlphaVantageResponse raw) := by
  have ha : ∃ pts, parseAlphaVantageResponse raw = jsSortPoints pts := by
    cases raw
    case jobj fields => exact ⟨_, rfl⟩
    all_goals exact ⟨[], rfl⟩
  have hb : ∃ pts, svcParseAlphaVantageResponse raw = jsSortPoints pts := by
    cases raw
    case jobj fields => exact ⟨_, rfl⟩
    all_goals exact ⟨[], rfl⟩
  obtain ⟨pts1, hp1⟩ := ha
  obtain ⟨pts2, hp2⟩ := hb
  rw [hp1] at h1 ⊢
  rw [hp2] at h2 ⊢
  exact ⟨sortedByTs_jsSortPoints fun q hq => h1 q (mem_jsSortPoints.mpr hq),
         sortedByTs_jsSortPoints fun q hq => h2 q (mem_jsSortPoints.mpr hq)⟩

/-- A payload whose flat-list records appear in descending date
order. -/
def c7Raw : JsonVal :=
  .jobj [("data", .jarr [
    .jobj [("date", .jstr "2024-01-05"), ("value", .jstr "3")],
    .jobj [("date", .jstr "2024-01-02"), ("value", .jstr "72.5")]])]

/-- Witness for C7 at a concrete out-of-order payload. -/
theorem normalizer_output_sorted_witness :
    (∀ p ∈ parseAlphaVantageResponse c7Raw, p.timestamp.isSome) ∧
    (∀ p ∈ svcParseAlphaVantageResponse c7Raw, p.timestamp.isSome) ∧
    (sortedByTs (parseAlphaVantageResponse c7Raw) ∧
     sortedByTs (svcParseAlphaVantageResponse c7Raw)) :=
  ⟨by decide, by decide, normalizer_output_sorted c7Raw (by decide) (by decide)⟩

/-- A payload with one unparseable date among valid ones. -/
def c7BadRaw : JsonVal :=
  .jobj [("data", .jarr [
    .jobj [("date", .jstr "2024-01-02"), ("value", .jstr "2")],
    .jobj [("date", .jstr "oops"), ("value", .jstr "1")],
    .jobj [("date", .jstr "2024-01-01"), ("value", .jstr "3")]])]

/-- C7 counterexample: a payload containing a record with an
unparseable date yields an output that is not sorted ascending by
timestamp — the point carrying the NaN timestamp is ordered with
respect to nothing. -/
theorem normalizer_output_sorted_counterexample :
    ¬ sortedByTs (parseAlphaVantageResponse c7BadRaw) ∧
    ¬ sortedByTs (svcParseAlphaVantageResponse c7BadRaw) := by decide

/-- Witness for C4: the sentinel value string "." is rejected by every
shape of both parsers on a concrete record. -/
theorem flat_list_acceptance_witness :
    (JsonVal.jstr "." = JsonVal.jstr "." ∨ JsonVal.jstr "." = .jstr "") ∧
    (recordOk (.jobj [("date", .jstr "2024-01-02"), ("value", .jstr ".")]) = false ∧
     svcRowPoint (.jobj [("date", .jstr "2024-01-02"), ("value", .jstr ".")]) = none ∧
     shapeBEntry ("2024-01-02", .jobj [("4. close", .jstr ".")]) = none ∧
     svcShapeBEntry ("2024-01-02", .jobj [("4. close", .jstr ".")]) = none) :=
  ⟨Or.inl rfl,
   flat_list_acceptance.2.2.2 "2024-01-02" (.jstr ".") (Or.inl rfl)⟩
